import Mathlib

/-!
Shallow embedding of the dev-events data-access layer.

The embedding covers, faithfully to the TypeScript source:
  * `normalizeTime` and `normalizeDate` from `src/database/event.model.ts`
    (the regular expressions are modelled as explicit character-list parsers);
  * `generateSlug` / `generateUniqueSlug` and the `EventSchema.pre('save')`
    hook from `src/database/event.model.ts` (the MongoDB collection is
    modelled as a list of event documents, `Event.findOne` as a list scan);
  * `createBookingWithTransaction` / `deleteBookingWithTransaction` from
    `src/database/booking.utils.ts` (a transaction is modelled by returning
    either the updated store on commit or the unchanged store on abort);
  * the cached `connectDB` connection manager (the settled outcome of the
    in-flight promise is modelled as an `Except` value; awaiting it is a
    `match`).

JavaScript strings are modelled as Lean `String`s; `trim` and the regex
class `\s` are modelled over the common ASCII whitespace characters
(space, tab, line feed, carriage return), which is exact on every input
appearing in the claims. Thrown JavaScript `Error`s are modelled as
`Except.error` carrying the message built by the source.
-/

namespace DevEvents

/-- Whitespace as used by the source's `trim()` calls and `\s` regex class,
restricted to the common ASCII whitespace characters. -/
def jsWhitespace (c : Char) : Bool :=
  c = ' ' || c = '\t' || c = '\n' || c = '\r'

/-- Model of JavaScript `String.prototype.trim` on a character list. -/
def jsTrimList (l : List Char) : List Char :=
  ((l.dropWhile jsWhitespace).reverse.dropWhile jsWhitespace).reverse

/-- Model of JavaScript `String.prototype.trim`. -/
def jsTrim (s : String) : String :=
  String.mk (jsTrimList s.data)

/-- Model of JavaScript `String.prototype.toLowerCase` (character-wise ASCII
lowering, which agrees with the runtime on ASCII input). -/
def jsToLower (s : String) : String :=
  String.mk (s.data.map Char.toLower)

/-- Numeric value of a digit string, as produced by `parseInt` on a string of
decimal digits. -/
def digitsToNat (l : List Char) : Nat :=
  l.foldl (fun acc c => acc * 10 + (c.toNat - 48)) 0

/-- Model of JavaScript `String.prototype.padStart(n, '0')`. -/
def padZeroTo (n : Nat) (s : String) : String :=
  if s.length < n then String.mk (List.replicate (n - s.length) '0') ++ s else s

/-- Result of matching the source regex
`^(\d{1,2}):(\d{2})(\s*(AM|PM))?$` (case-insensitive): the captured hour
digits, the captured minute digits, and the optional meridiem
(`some true` for `PM`, `some false` for `AM`). -/
structure TimeMatch where
  hourDigits : List Char
  minuteDigits : List Char
  meridiem : Option Bool
deriving Repr, DecidableEq

/-- Matches the optional tail `\s*(AM|PM)$` of the time regex,
case-insensitively. -/
def matchMeridiem (l : List Char) : Option Bool :=
  match l.dropWhile jsWhitespace with
  | [a, m] =>
    if (a = 'A' || a = 'a') && (m = 'M' || m = 'm') then some false
    else if (a = 'P' || a = 'p') && (m = 'M' || m = 'm') then some true
    else none
  | _ => none

/-- Model of matching `^(\d{1,2}):(\d{2})(\s*(AM|PM))?$` (case-insensitive)
against a character list. The hour group is the maximal leading digit run of
length 1 or 2 (a longer run cannot be followed by `:` after backtracking,
since the third digit is not a colon). -/
def timeMatch (l : List Char) : Option TimeMatch :=
  let hd := l.takeWhile Char.isDigit
  let rest := l.dropWhile Char.isDigit
  if hd.length < 1 || 2 < hd.length then none
  else
    match rest with
    | ':' :: m1 :: m2 :: rest3 =>
      if m1.isDigit && m2.isDigit then
        match rest3 with
        | [] => some ⟨hd, [m1, m2], none⟩
        | _ =>
          match matchMeridiem rest3 with
          | some p => some ⟨hd, [m1, m2], some p⟩
          | none => none
      else none
    | _ => none

/-- Message thrown by `normalizeTime` when the input does not match the
pattern. -/
def invalidTimeFormatMsg : String := "Invalid time format. Use HH:MM or HH:MM AM/PM"

/-- Message thrown by `normalizeTime` when the converted hour or minute is out
of range. -/
def invalidTimeValuesMsg : String := "Invalid time values"

/-- The 12-hour-to-24-hour conversion of `normalizeTime`: `PM` adds 12 unless
the hour is 12, `AM` rewrites hour 12 to 0, no suffix leaves the hour
unchanged. -/
def convertHours (h0 : Nat) (meridiem : Option Bool) : Nat :=
  match meridiem with
  | some true => if h0 ≠ 12 then h0 + 12 else h0
  | some false => if h0 = 12 then 0 else h0
  | none => h0

/-- Model of `normalizeTime` from `src/database/event.model.ts`. The source's
`hours < 0` and `parseInt(minutes) < 0` guards are vacuous on captured digit
strings and are dropped in the `Nat` model. -/
def normalizeTime (timeString : String) : Except String String :=
  match timeMatch (jsTrimList timeString.data) with
  | none => .error invalidTimeFormatMsg
  | some m =>
    let hours := convertHours (digitsToNat m.hourDigits) m.meridiem
    let minutes := digitsToNat m.minuteDigits
    if 23 < hours || 59 < minutes then .error invalidTimeValuesMsg
    else .ok (padZeroTo 2 (Nat.repr hours) ++ ":" ++ String.mk m.minuteDigits)

/-- Canonical zero-padded 24-hour `HH:MM` form, written from the
specification's words ("zero-padded 24-hour `HH:MM`") to compare the
implementation's outputs against. -/
def spec_canonicalTime (t : String) : Bool :=
  match t.data with
  | [h1, h2, ':', m1, m2] =>
    h1.isDigit && h2.isDigit && m1.isDigit && m2.isDigit &&
      digitsToNat [h1, h2] ≤ 23 && digitsToNat [m1, m2] ≤ 59
  | _ => false

instance {ε α : Type} [DecidableEq ε] [DecidableEq α] : DecidableEq (Except ε α) :=
  fun a b =>
  match a, b with
  | .error e₁, .error e₂ =>
    if h : e₁ = e₂ then .isTrue (by rw [h]) else .isFalse (by simp [h])
  | .ok v₁, .ok v₂ =>
    if h : v₁ = v₂ then .isTrue (by rw [h]) else .isFalse (by simp [h])
  | .error _, .ok _ => .isFalse (by simp)
  | .ok _, .error _ => .isFalse (by simp)

/-- Decidable check that zero-padding the decimal representation of `n` gives
exactly two digit characters whose value is `n` again. -/
def pad2DigitsOk (n : Nat) : Bool :=
  match (padZeroTo 2 (Nat.repr n)).data with
  | [a, b] => a.isDigit && b.isDigit && decide (digitsToNat [a, b] = n)
  | _ => false

example : normalizeTime "2:30 PM" = .ok "14:30" := by decide
example : normalizeTime "2:30" = .ok "02:30" := by decide
example : normalizeTime "13:00 AM" = .ok "13:00" := by decide
example : normalizeTime "12:00 AM" = .ok "00:00" := by decide
example : normalizeTime "12:30 pm" = .ok "12:30" := by decide
example : normalizeTime "25:00" = .error invalidTimeValuesMsg := by decide
example : normalizeTime "2:60" = .error invalidTimeValuesMsg := by decide
example : normalizeTime "abc" = .error invalidTimeFormatMsg := by decide
example : normalizeTime "123:00" = .error invalidTimeFormatMsg := by decide
example : normalizeTime " 2:30 PM " = .ok "14:30" := by decide

/-- Calendar date (proleptic Gregorian), the value carried by a valid
JavaScript `Date` as observed through its UTC accessors. -/
structure CalendarDate where
  year : Nat
  month : Nat
  day : Nat
deriving Repr, DecidableEq

/-- Model of the source regex test `/^\d{4}-\d{2}-\d{2}$/.test(s)`. -/
def isoDateTest (l : List Char) : Bool :=
  match l with
  | [y1, y2, y3, y4, '-', m1, m2, '-', d1, d2] =>
    y1.isDigit && y2.isDigit && y3.isDigit && y4.isDigit &&
      m1.isDigit && m2.isDigit && d1.isDigit && d2.isDigit
  | _ => false

/-- Gregorian leap-year rule. -/
def isLeapYear (y : Nat) : Bool :=
  (y % 4 = 0 && y % 100 ≠ 0) || y % 400 = 0

/-- Number of days in a month of a given year. -/
def daysInMonth (y m : Nat) : Nat :=
  if m = 2 then (if isLeapYear y then 29 else 28)
  else if m = 4 || m = 6 || m = 9 || m = 11 then 30
  else 31

/-- A real calendar date: month in 1..12 and day in 1..daysInMonth. -/
def validCalendarDate (d : CalendarDate) : Bool :=
  1 ≤ d.month && d.month ≤ 12 && 1 ≤ d.day && d.day ≤ daysInMonth d.year d.month

/-- Parses a nonempty all-digit character list. -/
def parseDigits (l : List Char) : Option Nat :=
  if l ≠ [] && l.all Char.isDigit then some (digitsToNat l) else none

/-- Recognizes a `THH:MM:SSZ` time suffix with in-range fields; the only time
suffix this code ever produces is `T00:00:00Z`, which the source appends to a
regex-validated date before handing it to the `Date` constructor. -/
def timeSuffixOk (l : List Char) : Bool :=
  match l with
  | ['T', h1, h2, ':', mi1, mi2, ':', s1, s2, 'Z'] =>
    h1.isDigit && h2.isDigit && mi1.isDigit && mi2.isDigit &&
      s1.isDigit && s2.isDigit &&
      digitsToNat [h1, h2] ≤ 23 && digitsToNat [mi1, mi2] ≤ 59 &&
      digitsToNat [s1, s2] ≤ 59
  | _ => false

/-- Model of the JavaScript runtime's `new Date(string)` on the date strings
this layer feeds it, returning the UTC calendar date of the parsed instant or
`none` for an invalid date. The runtime (V8-style parsing, process timezone
UTC) accepts `YYYY-MM-DD` and the hyphenated `YYYY-M-D` legacy form, with or
without a `THH:MM:SSZ` suffix, and rejects dates that are not real calendar
dates (e.g. `2024-02-30`); every other string is an invalid date. -/
def jsDateParse (s : String) : Option CalendarDate :=
  let l := s.data
  let datePart := l.takeWhile (fun c => c.isDigit || c = '-')
  let rest := l.dropWhile (fun c => c.isDigit || c = '-')
  if rest ≠ [] && !timeSuffixOk rest then none
  else
    match datePart.splitOn '-' with
    | [ys, ms, ds] =>
      if ys.length = 4 && 1 ≤ ms.length && ms.length ≤ 2 &&
          1 ≤ ds.length && ds.length ≤ 2 then
        match parseDigits ys, parseDigits ms, parseDigits ds with
        | some y, some m, some d =>
          if validCalendarDate ⟨y, m, d⟩ then some ⟨y, m, d⟩ else none
        | _, _, _ => none
      else none
    | _ => none

/-- The date part of `Date.prototype.toISOString`, i.e.
`toISOString().split('T')[0]` from the source. -/
def toISODateOnly (d : CalendarDate) : String :=
  padZeroTo 4 (Nat.repr d.year) ++ "-" ++ padZeroTo 2 (Nat.repr d.month) ++
    "-" ++ padZeroTo 2 (Nat.repr d.day)

/-- Message thrown by `normalizeDate` on an unparseable date. -/
def invalidDateMsg : String := "Invalid date format"

/-- Model of `normalizeDate` from `src/database/event.model.ts`,
parameterized by the runtime's date parser (instantiated with `jsDateParse`
for concrete evaluation). -/
def normalizeDate (parse : String → Option CalendarDate) (dateString : String) :
    Except String String :=
  if isoDateTest dateString.data then
    match parse (dateString ++ "T00:00:00Z") with
    | none => .error invalidDateMsg
    | some _ => .ok dateString
  else
    match parse dateString with
    | none => .error invalidDateMsg
    | some d => .ok (toISODateOnly d)

example : normalizeDate jsDateParse "2024-1-5" = .ok "2024-01-05" := by decide
example : normalizeDate jsDateParse "not-a-date" = .error invalidDateMsg := by decide
example : normalizeDate jsDateParse "2024-01-05" = .ok "2024-01-05" := by decide
example : normalizeDate jsDateParse "2024-02-30" = .error invalidDateMsg := by decide
example : normalizeDate jsDateParse "2024-02-29" = .ok "2024-02-29" := by decide
example : normalizeDate jsDateParse "2023-02-29" = .error invalidDateMsg := by decide

/-- Characters kept by the source's replace of `[^a-z0-9\s-]` with the empty
string: lowercase letters, digits, whitespace and hyphen. -/
def slugAllowedChar (c : Char) : Bool :=
  ('a' ≤ c && c ≤ 'z') || ('0' ≤ c && c ≤ '9') || jsWhitespace c || c = '-'

/-- Replaces every maximal run of characters satisfying `isRun` by the single
character `rep`, as JavaScript `replace(/X+/g, rep)` does. The flag records
whether the previous character belonged to a run. -/
def collapseRuns (isRun : Char → Bool) (rep : Char) : List Char → Bool → List Char
  | [], _ => []
  | c :: rest, inRun =>
    if isRun c then
      if inRun then collapseRuns isRun rep rest true
      else rep :: collapseRuns isRun rep rest true
    else c :: collapseRuns isRun rep rest false

/-- Model of `replace(/^-|-$/g, '')`: the global alternation matches at most
one leading and one trailing hyphen. -/
def stripEdgeHyphens (l : List Char) : List Char :=
  let l1 := match l with
    | '-' :: rest => rest
    | other => other
  match l1.reverse with
  | '-' :: rest => rest.reverse
  | _ => l1

/-- Model of `generateSlug` from `src/database/event.model.ts`: lowercase,
trim, strip characters outside `[a-z0-9\s-]`, collapse whitespace runs to a
hyphen, collapse hyphen runs, strip edge hyphens. -/
def generateSlug (title : String) : String :=
  String.mk (stripEdgeHyphens (collapseRuns (fun c => c = '-') '-'
    (collapseRuns jsWhitespace '-'
      (List.filter slugAllowedChar (jsTrimList (jsToLower title).data)) false) false))

example : generateSlug "Dev Summit 2024!" = "dev-summit-2024" := by decide
example : generateSlug "  Hello -- World  " = "hello-world" := by decide
example : generateSlug "!!!" = "" := by decide
example : generateSlug "--a--" = "a" := by decide
example : generateSlug "É é" = "" := by decide

/-- Event document as stored in the `Event` collection, restricted to the
fields this layer reads or writes (`_id`, `title`, `slug`, `date`, `time`). -/
structure EventDoc where
  id : Nat
  title : String
  slug : String
  date : String
  time : String
deriving Repr, DecidableEq

/-- Model of the lookup `Event.findOne(query)` in `generateUniqueSlug`:
`query` is `{ slug, _id: { $ne: excludeId } }` when an `excludeId` was passed
and `{ slug }` otherwise; the result is whether any stored event matches. -/
def slugTaken (store : List EventDoc) (excludeId : Option Nat) (slug : String) : Bool :=
  store.any fun e =>
    e.slug = slug &&
      match excludeId with
      | some ex => e.id != ex
      | none => true

/-- The candidate slug tried on the (i+1)-st lookup of the collision loop:
the base slug itself first, then `base-1`, `base-2`, and so on. -/
def slugCandidate (baseSlug : String) : Nat → String
  | 0 => baseSlug
  | n + 1 => baseSlug ++ "-" ++ Nat.repr (n + 1)

/-- Bound on collision-resolution lookups, `MAX_ATTEMPTS` in the source. -/
def MAX_ATTEMPTS : Nat := 100

/-- Message of the error thrown when all `MAX_ATTEMPTS` candidates collide. -/
def slugExhaustedMsg : String := "Unable to generate unique slug after 100 attempts"

/-- The collision-resolution loop of `generateUniqueSlug`: `fuel` is the
number of remaining loop iterations, `slug` the candidate tried next, and
`counter` the suffix appended on the next collision. -/
def slugSearch (store : List EventDoc) (excludeId : Option Nat) (baseSlug : String) :
    String → Nat → Nat → Except String String
  | _, _, 0 => .error slugExhaustedMsg
  | slug, counter, fuel + 1 =>
    if slugTaken store excludeId slug then
      slugSearch store excludeId baseSlug (baseSlug ++ "-" ++ Nat.repr counter)
        (counter + 1) fuel
    else .ok slug

/-- Model of `generateUniqueSlug` from `src/database/event.model.ts`. -/
def generateUniqueSlug (store : List EventDoc) (title : String)
    (excludeId : Option Nat) : Except String String :=
  slugSearch store excludeId (generateSlug title) (generateSlug title) 1 MAX_ATTEMPTS

/-- Flags mongoose exposes to the `pre('save')` hook: whether the document is
new and which fields were modified. -/
structure EventFlags where
  isNew : Bool
  titleModified : Bool
  dateModified : Bool
  timeModified : Bool
deriving Repr, DecidableEq

/-- Model of `EventSchema.pre('save')` from `src/database/event.model.ts`: on
title change or new document regenerate the slug excluding the document's own
`_id`; then normalize date and time when modified; the first failing step
aborts the save with its error. -/
def eventPreSave (parse : String → Option CalendarDate) (store : List EventDoc)
    (e : EventDoc) (flags : EventFlags) : Except String EventDoc := do
  let e1 ←
    if flags.titleModified || flags.isNew then
      match generateUniqueSlug store e.title (some e.id) with
      | .error msg => Except.error msg
      | .ok s => pure { e with slug := s }
    else pure e
  let e2 ←
    if flags.dateModified then
      match normalizeDate parse e1.date with
      | .error msg => Except.error msg
      | .ok d => pure { e1 with date := d }
    else pure e1
  if flags.timeModified then
    match normalizeTime e2.time with
    | .error msg => Except.error msg
    | .ok t => pure { e2 with time := t }
  else pure e2

example : generateUniqueSlug [] "Dev Summit" none = .ok "dev-summit" := by decide
example :
    generateUniqueSlug [⟨1, "Dev Summit", "dev-summit", "", ""⟩] "Dev Summit" none =
      .ok "dev-summit-1" := by decide
example :
    generateUniqueSlug
      [⟨1, "Dev Summit", "dev-summit", "", ""⟩,
       ⟨2, "Dev Summit", "dev-summit-1", "", ""⟩] "Dev Summit" none =
      .ok "dev-summit-2" := by decide
example :
    generateUniqueSlug [⟨1, "Dev Summit", "dev-summit", "", ""⟩] "Dev Summit!" (some 1) =
      .ok "dev-summit" := by decide
example : generateUniqueSlug [⟨1, "t", "", "", ""⟩] "!!!" none = .ok "-1" := by decide

/-- ASCII letter or digit. -/
def isAlnum (c : Char) : Bool :=
  c.isDigit || ('a' ≤ c && c ≤ 'z') || ('A' ≤ c && c ≤ 'Z')

/-- The non-alphanumeric characters admitted in the local part of the
booking-schema email regex (the code points 39 and 96 are the apostrophe and
the backquote). -/
def emailLocalSpecials : List Char :=
  ['.', '!', '#', '$', '%', '&', Char.ofNat 39, '*', '+', '/', '=', '?',
   '^', '_', Char.ofNat 96, '{', '|', '}', '~', '-']

/-- Character class of the local part of the email regex. -/
def emailLocalChar (c : Char) : Bool :=
  isAlnum c || emailLocalSpecials.contains c

/-- Language of one domain label
`[a-zA-Z0-9](?:[a-zA-Z0-9-]{0,61}[a-zA-Z0-9])?`: length 1 to 63, characters
alphanumeric or hyphen, first and last alphanumeric. -/
def domainLabelOk (l : List Char) : Bool :=
  1 ≤ l.length && l.length ≤ 63 &&
    (match l.head?, l.getLast? with
     | some a, some b => isAlnum a && isAlnum b
     | _, _ => false) &&
    l.all fun c => isAlnum c || c = '-'

/-- Model of the booking schema's email validator regex
`^[local]+@label(\.label)*$`. Neither character class contains `@` or `.`,
so splitting on them is equivalent to the regex match. -/
def isValidEmail (s : String) : Bool :=
  match s.data.splitOn '@' with
  | [localPart, domain] =>
    localPart ≠ [] && localPart.all emailLocalChar &&
      (domain.splitOn '.').all domainLabelOk
  | _ => false

example : isValidEmail "user.name+tag@example.co" = true := by decide
example : isValidEmail "user@-bad.com" = false := by decide
example : isValidEmail "user@" = false := by decide
example : isValidEmail "user@ex_ample.com" = false := by decide

/-- Booking document as stored in the `Booking` collection (`_id`, `eventId`,
`email`). -/
structure BookingDoc where
  id : Nat
  eventId : Nat
  email : String
deriving Repr, DecidableEq

/-- The persistent store the transactional operations act on: the `Event` and
`Booking` collections. -/
structure DB where
  events : List EventDoc
  bookings : List BookingDoc
deriving Repr, DecidableEq

/-- Message of the error thrown when the referenced event does not exist
(thrown both by `createBookingWithTransaction` and by the booking
`pre('save')` hook). -/
def eventExistsMsg (eventId : Nat) : String :=
  "Event with ID " ++ Nat.repr eventId ++ " does not exist"

/-- Message of the schema-level email validation failure. -/
def invalidEmailMsg : String := "Please provide a valid email address"

/-- Message of the storage-layer violation of the unique
`(eventId, email)` index `uniq_event_email`. -/
def uniqConflictMsg : String := "duplicate key error: uniq_event_email"

/-- Model of `Booking.create([data], { session })`: the schema setters trim
and lowercase the email, the validator checks the email regex, the booking
`pre('save')` hook checks the referenced event exists, and the insert is
subject to the unique `(eventId, email)` index. -/
def bookingCreate (db : DB) (b : BookingDoc) : Except String DB :=
  let email := jsToLower (jsTrim b.email)
  if !isValidEmail email then .error invalidEmailMsg
  else if !db.events.any (fun e => e.id == b.eventId) then
    .error (eventExistsMsg b.eventId)
  else if db.bookings.any (fun x => x.eventId == b.eventId && x.email == email) then
    .error uniqConflictMsg
  else .ok { db with bookings := db.bookings ++ [{ b with email := email }] }

/-- Model of `createBookingWithTransaction` from
`src/database/booking.utils.ts`. The returned store is the state after the
call: the original store when the transaction aborted, the extended store
when it committed. `newId` stands for the fresh `_id` mongoose assigns. -/
def createBookingWithTransaction (db : DB) (eventId : Nat) (email : String)
    (newId : Nat) : Except String BookingDoc × DB :=
  match db.events.find? (fun e => e.id == eventId) with
  | none => (.error (eventExistsMsg eventId), db)
  | some _ =>
    let bookingData : BookingDoc := ⟨newId, eventId, jsToLower (jsTrim email)⟩
    match bookingCreate db bookingData with
    | .error msg => (.error msg, db)
    | .ok db2 => (.ok bookingData, db2)

/-- Model of `deleteBookingWithTransaction` from
`src/database/booking.utils.ts`: `findByIdAndDelete` removes the document
with the given `_id` when present; the transaction commits either way and the
call returns whether a document was removed. -/
def deleteBookingWithTransaction (db : DB) (bookingId : Nat) : Bool × DB :=
  match db.bookings.find? (fun b => b.id == bookingId) with
  | none => (false, db)
  | some _ =>
    (true, { db with bookings := db.bookings.eraseP (fun b => b.id == bookingId) })

/-- Model of the `MongooseCache` of the connection manager: the resolved
connection handle (if any) and the settled outcome of the in-flight
connection attempt (if any); awaiting a promise is modelled by inspecting its
settled outcome. Connection handles are drawn from `Nat`. -/
structure MongooseCache where
  conn : Option Nat
  promise : Option (Except String Nat)
deriving Repr, DecidableEq

/-- Model of `connectDB` from the connection manager: return the cached
connection if resolved; otherwise reuse the in-flight attempt or start a new
one via `connect`; on success cache the connection, on failure clear the
in-flight marker and propagate the error. The returned cache is the state
after the call. -/
def connectDB (connect : Unit → Except String Nat) (cache : MongooseCache) :
    Except String Nat × MongooseCache :=
  match cache.conn with
  | some c => (.ok c, cache)
  | none =>
    let p := match cache.promise with
      | some p => p
      | none => connect ()
    match p with
    | .ok c => (.ok c, { conn := some c, promise := some p })
    | .error e => (.error e, { conn := cache.conn, promise := none })

example :
    createBookingWithTransaction ⟨[], []⟩ 7 "A@b.c" 1 =
      (.error (eventExistsMsg 7), ⟨[], []⟩) := by decide
example :
    createBookingWithTransaction ⟨[⟨7, "t", "t", "", ""⟩], []⟩ 7 " A@b.cd " 1 =
      (.ok ⟨1, 7, "a@b.cd"⟩, ⟨[⟨7, "t", "t", "", ""⟩], [⟨1, 7, "a@b.cd"⟩]⟩) := by decide
example :
    deleteBookingWithTransaction ⟨[], [⟨1, 7, "a@b.cd"⟩]⟩ 1 =
      (true, ⟨[], []⟩) := by decide
example :
    deleteBookingWithTransaction ⟨[], []⟩ 1 = (false, ⟨[], []⟩) := by decide
example :
    connectDB (fun _ => .ok 5) ⟨none, none⟩ = (.ok 5, ⟨some 5, some (.ok 5)⟩) := by
  decide
example :
    connectDB (fun _ => .error "down") ⟨none, none⟩ =
      (.error "down", ⟨none, none⟩) := by decide

/-- Helper: starting from candidate index `start`, if the next `k` candidates
collide and candidate `start + k` is free, the collision loop returns
candidate `start + k` (provided enough fuel remains). -/
theorem slugSearch_reaches (store : List EventDoc) (ex : Option Nat) (base : String) :
    ∀ (k start fuel : Nat), k < fuel →
      (∀ i, i < k → slugTaken store ex (slugCandidate base (start + i)) = true) →
      slugTaken store ex (slugCandidate base (start + k)) = false →
      slugSearch store ex base (slugCandidate base start) (start + 1) fuel =
        Except.ok (slugCandidate base (start + k)) := by
  intro k
  induction k with
  | zero =>
    intro start fuel hk _ hfree
    match fuel, hk with
    | fuel + 1, _ =>
      rw [Nat.add_zero] at hfree
      simp [slugSearch, hfree]
  | succ k ih =>
    intro start fuel hk htaken hfree
    match fuel, hk with
    | fuel + 1, hk =>
      have h0 : slugTaken store ex (slugCandidate base start) = true := by
        have h := htaken 0 (Nat.succ_pos k)
        rwa [Nat.add_zero] at h
      have hstep : base ++ "-" ++ Nat.repr (start + 1) = slugCandidate base (start + 1) :=
        rfl
      have hshift : start + 1 + k = start + (k + 1) := by omega
      have hrec := ih (start + 1) fuel (by omega)
        (fun i hi => by
          have h2 : start + 1 + i = start + (i + 1) := by omega
          rw [h2]
          exact htaken (i + 1) (by omega))
        (by rw [hshift]; exact hfree)
      rw [hshift] at hrec
      simp only [slugSearch, h0, if_true]
      rw [hstep]
      exact hrec

/-- Helper: if every remaining candidate collides, the collision loop runs out
of fuel and fails with the exhaustion error. -/
theorem slugSearch_exhausts (store : List EventDoc) (ex : Option Nat) (base : String) :
    ∀ (fuel start : Nat),
      (∀ i, i < fuel → slugTaken store ex (slugCandidate base (start + i)) = true) →
      slugSearch store ex base (slugCandidate base start) (start + 1) fuel =
        Except.error slugExhaustedMsg := by
  intro fuel
  induction fuel with
  | zero =>
    intro start _
    simp [slugSearch]
  | succ fuel ih =>
    intro start htaken
    have h0 : slugTaken store ex (slugCandidate base start) = true := by
      have h := htaken 0 (Nat.succ_pos fuel)
      rwa [Nat.add_zero] at h
    have hstep : base ++ "-" ++ Nat.repr (start + 1) = slugCandidate base (start + 1) :=
      rfl
    simp only [slugSearch, h0, if_true]
    rw [hstep]
    exact ih (start + 1) fun i hi => by
      have h2 : start + 1 + i = start + (i + 1) := by omega
      rw [h2]
      exact htaken (i + 1) (by omega)

/-- Helper: `generateUniqueSlug` is the collision loop started at candidate 0
with counter 1 and full fuel. -/
theorem generateUniqueSlug_eq_slugSearch (store : List EventDoc) (title : String)
    (ex : Option Nat) :
    generateUniqueSlug store title ex =
      slugSearch store ex (generateSlug title) (slugCandidate (generateSlug title) 0)
        (0 + 1) MAX_ATTEMPTS := rfl

/-- Helper: `generateUniqueSlug` returns candidate `k` when candidates
`0, …, k-1` are taken and candidate `k` is free. -/
theorem uniqueSlug_reaches (store : List EventDoc) (title : String)
    (ex : Option Nat) (k : Nat) (hk : k < MAX_ATTEMPTS)
    (htaken : ∀ i, i < k →
      slugTaken store ex (slugCandidate (generateSlug title) i) = true)
    (hfree : slugTaken store ex (slugCandidate (generateSlug title) k) = false) :
    generateUniqueSlug store title ex =
      Except.ok (slugCandidate (generateSlug title) k) := by
  rw [generateUniqueSlug_eq_slugSearch]
  have h := slugSearch_reaches store ex (generateSlug title) k 0 MAX_ATTEMPTS hk
    (fun i hi => by simpa using htaken i hi) (by simpa using hfree)
  simpa using h

/-- C2: the collision-resolution loop tries the canonical base slug first and
then `base-1`, `base-2`, …, one counter increment per colliding lookup; hence
when the `k` candidates `base`, `base-1`, …, `base-(k-1)` are exactly the ones
already taken (the situation of the Nth creation with the same base, with
`k = N - 1`), the returned slug is `base-(N-1)` (the base slug itself for
`N = 1`). -/
theorem generateUniqueSlug_nth (store : List EventDoc) (title : String)
    (ex : Option Nat) (k : Nat) (hk : k < MAX_ATTEMPTS)
    (htaken : ∀ i, i < k →
      slugTaken store ex (slugCandidate (generateSlug title) i) = true)
    (hfree : slugTaken store ex (slugCandidate (generateSlug title) k) = false) :
    generateUniqueSlug store title ex =
      Except.ok (slugCandidate (generateSlug title) k) :=
  uniqueSlug_reaches store title ex k hk htaken hfree

/-- Witness for C2: the store already holds `dev-summit` and `dev-summit-1`,
so the third creation of a title with base `dev-summit` gets
`dev-summit-2`. -/
theorem generateUniqueSlug_nth_witness :
    generateUniqueSlug
        [⟨1, "Dev Summit", "dev-summit", "", ""⟩,
         ⟨2, "Dev Summit", "dev-summit-1", "", ""⟩] "Dev Summit" none =
      Except.ok "dev-summit-2" := by
  have h := generateUniqueSlug_nth
    [⟨1, "Dev Summit", "dev-summit", "", ""⟩,
     ⟨2, "Dev Summit", "dev-summit-1", "", ""⟩] "Dev Summit" none 2
    (by decide)
    (by decide)
    (by decide)
  simpa using h

/-- Helper: `generateUniqueSlug` fails with the exhaustion error when all
`MAX_ATTEMPTS` candidates are taken. -/
theorem uniqueSlug_exhausts (store : List EventDoc) (title : String)
    (ex : Option Nat)
    (htaken : ∀ i, i < MAX_ATTEMPTS →
      slugTaken store ex (slugCandidate (generateSlug title) i) = true) :
    generateUniqueSlug store title ex = Except.error slugExhaustedMsg := by
  rw [generateUniqueSlug_eq_slugSearch]
  have h := slugSearch_exhausts store ex (generateSlug title) MAX_ATTEMPTS 0
    (fun i hi => by simpa using htaken i hi)
  simpa using h

/-- C3: when all 100 candidate slugs are taken, `generateUniqueSlug` stops
after `MAX_ATTEMPTS = 100` colliding lookups and fails with the exhaustion
error instead of looping further or returning a colliding slug. -/
theorem generateUniqueSlug_exhausted (store : List EventDoc) (title : String)
    (ex : Option Nat)
    (htaken : ∀ i, i < MAX_ATTEMPTS →
      slugTaken store ex (slugCandidate (generateSlug title) i) = true) :
    generateUniqueSlug store title ex = Except.error slugExhaustedMsg :=
  uniqueSlug_exhausts store title ex htaken

/-- A store holding all 100 candidate slugs for the base `x`. -/
def exhaustedStore : List EventDoc :=
  (List.range MAX_ATTEMPTS).map fun i => ⟨i, "x", slugCandidate "x" i, "", ""⟩

/-- Witness for C3: with every candidate `x`, `x-1`, …, `x-99` taken, the
generator fails with the exhaustion error. -/
theorem generateUniqueSlug_exhausted_witness :
    generateUniqueSlug exhaustedStore "x" none = Except.error slugExhaustedMsg :=
  generateUniqueSlug_exhausted exhaustedStore "x" none (by decide)

/-- Helper: the base slug is not taken when every stored event holding it is
the excluded document itself. -/
theorem slugTaken_of_only_self (store : List EventDoc) (slug : String) (exId : Nat)
    (h : ∀ x ∈ store, x.slug = slug → x.id = exId) :
    slugTaken store (some exId) slug = false := by
  simp only [slugTaken, List.any_eq_false]
  intro x hx
  by_cases hs : x.slug = slug
  · have hid := h x hx hs
    simp [hs, hid]
  · simp [hs]

/-- C4: every collision lookup excludes the document identified by
`excludeId`; hence when every stored event holding the canonical base slug of
the new title is the document itself, `generateUniqueSlug` returns the base
slug, and the `pre('save')` hook (title modified, date/time untouched) saves
the document with exactly that slug. -/
theorem generateUniqueSlug_excludes_self (store : List EventDoc) (e : EventDoc)
    (parse : String → Option CalendarDate)
    (h : ∀ x ∈ store, x.slug = generateSlug e.title → x.id = e.id) :
    generateUniqueSlug store e.title (some e.id) =
      Except.ok (generateSlug e.title) ∧
    eventPreSave parse store e ⟨false, true, false, false⟩ =
      Except.ok { e with slug := generateSlug e.title } := by
  have hfree : slugTaken store (some e.id) (generateSlug e.title) = false :=
    slugTaken_of_only_self store (generateSlug e.title) e.id h
  have hslug := uniqueSlug_reaches store e.title (some e.id) 0 (by decide)
    (fun i hi => absurd hi (by omega)) hfree
  refine ⟨hslug, ?_⟩
  simp only [eventPreSave, hslug, slugCandidate, Bool.false_or]
  rfl

/-- Witness for C4: the document with id 1 holds slug `dev-summit`; renaming
it to `Dev Summit!`, whose base slug is again `dev-summit`, does not collide
with itself and keeps the slug. -/
theorem generateUniqueSlug_excludes_self_witness :
    generateUniqueSlug [⟨1, "Dev Summit", "dev-summit", "", ""⟩] "Dev Summit!"
        (some 1) = Except.ok "dev-summit" ∧
    eventPreSave jsDateParse [⟨1, "Dev Summit", "dev-summit", "", ""⟩]
        ⟨1, "Dev Summit!", "dev-summit", "", ""⟩ ⟨false, true, false, false⟩ =
      Except.ok ⟨1, "Dev Summit!", "dev-summit", "", ""⟩ := by
  have h := generateUniqueSlug_excludes_self
    [⟨1, "Dev Summit", "dev-summit", "", ""⟩]
    ⟨1, "Dev Summit!", "dev-summit", "", ""⟩ jsDateParse (by decide)
  exact h

/-- C10: a title whose canonicalization is empty is not special-cased: the
empty string is used as the base slug, returned as-is when free, and the
candidates on collision are `-1`, `-2`, … . -/
theorem generateUniqueSlug_empty_base (store : List EventDoc) (title : String)
    (ex : Option Nat) (hbase : generateSlug title = "") :
    (slugTaken store ex "" = false →
      generateUniqueSlug store title ex = Except.ok "") ∧
    (slugTaken store ex "" = true → slugTaken store ex "-1" = false →
      generateUniqueSlug store title ex = Except.ok "-1") := by
  constructor
  · intro hfree
    have h := uniqueSlug_reaches store title ex 0 (by decide)
      (fun i hi => absurd hi (by omega)) (by rw [slugCandidate, hbase]; exact hfree)
    rwa [slugCandidate, hbase] at h
  · intro htaken hfree
    have hcand : slugCandidate (generateSlug title) 1 = "-1" := by
      rw [hbase]; decide
    have h := uniqueSlug_reaches store title ex 1 (by decide)
      (fun i hi => by
        have hi0 : i = 0 := by omega
        rw [hi0, slugCandidate, hbase]
        exact htaken)
      (by rw [hcand]; exact hfree)
    rwa [hcand] at h

/-- Witness for C10: title `!!!` canonicalizes to the empty slug; with the
empty slug already taken, the generator returns `-1`. -/
theorem generateUniqueSlug_empty_base_witness :
    generateUniqueSlug [⟨1, "t", "", "", ""⟩] "!!!" none = Except.ok "-1" :=
  (generateUniqueSlug_empty_base [⟨1, "t", "", "", ""⟩] "!!!" none
    (by decide)).2 (by decide) (by decide)

/-- C1: creating a booking for an `eventId` no stored event carries fails with
the "does not exist" reference error, and the aborted transaction leaves the
store exactly as it was: no booking document is persisted. -/
theorem createBooking_missing_event (db : DB) (eventId : Nat) (email : String)
    (newId : Nat) (h : ∀ e ∈ db.events, e.id ≠ eventId) :
    createBookingWithTransaction db eventId email newId =
      (Except.error (eventExistsMsg eventId), db) := by
  have hnone : db.events.find? (fun e => e.id == eventId) = none := by
    rw [List.find?_eq_none]
    intro x hx
    simpa using h x hx
  simp [createBookingWithTransaction, hnone]

/-- Witness for C1: the store has only event 1; booking event 2 fails and the
store is unchanged. -/
theorem createBooking_missing_event_witness :
    createBookingWithTransaction ⟨[⟨1, "t", "t", "", ""⟩], []⟩ 2 "a@b.cd" 5 =
      (Except.error (eventExistsMsg 2), ⟨[⟨1, "t", "t", "", ""⟩], []⟩) :=
  createBooking_missing_event ⟨[⟨1, "t", "t", "", ""⟩], []⟩ 2 "a@b.cd" 5 (by decide)

/-- Helper: erasing from a list that holds at most one element satisfying `p`
leaves no element satisfying `p`. -/
theorem eraseP_none_left {α : Type} (p : α → Bool) :
    ∀ l : List α, l.countP p ≤ 1 → ∀ x ∈ l.eraseP p, p x = false := by
  intro l
  induction l with
  | nil => simp
  | cons a t ih =>
    intro hcount x hx
    by_cases ha : p a = true
    · rw [List.eraseP_cons_of_pos ha] at hx
      rw [List.countP_cons_of_pos _ _ ha] at hcount
      have ht : t.countP p = 0 := by omega
      have := List.countP_eq_zero.mp ht x hx
      simpa using this
    · rw [List.eraseP_cons_of_neg (by simpa using ha)] at hx
      rw [List.countP_cons_of_neg _ _ (by simpa using ha)] at hcount
      rcases List.mem_cons.mp hx with hxa | hxt
      · rw [hxa]
        simpa using ha
      · exact ih hcount x hxt

/-- C7: `deleteBookingWithTransaction` never throws and is idempotent: with no
matching booking it commits and returns `false` leaving the store unchanged;
with a matching booking it returns `true` and removes it, and any repeated
call with the same id returns `false` without touching the store (the
hypothesis is the `_id`-uniqueness invariant of the collection). -/
theorem deleteBooking_idempotent (db : DB) (bid : Nat)
    (huniq : db.bookings.countP (fun b => b.id == bid) ≤ 1) :
    ((∀ b ∈ db.bookings, b.id ≠ bid) →
      deleteBookingWithTransaction db bid = (false, db)) ∧
    ((∃ b ∈ db.bookings, b.id = bid) →
      (deleteBookingWithTransaction db bid).1 = true ∧
      deleteBookingWithTransaction (deleteBookingWithTransaction db bid).2 bid =
        (false, (deleteBookingWithTransaction db bid).2)) := by
  constructor
  · intro hno
    have hnone : db.bookings.find? (fun b => b.id == bid) = none := by
      rw [List.find?_eq_none]
      intro x hx
      simpa using hno x hx
    simp [deleteBookingWithTransaction, hnone]
  · rintro ⟨b, hb, hid⟩
    have hsome : (db.bookings.find? (fun b => b.id == bid)).isSome := by
      rw [List.find?_isSome]
      exact ⟨b, hb, by simpa using hid⟩
    obtain ⟨b1, hb1⟩ := Option.isSome_iff_exists.mp hsome
    have hnone2 :
        (db.bookings.eraseP (fun b => b.id == bid)).find?
          (fun b => b.id == bid) = none := by
      rw [List.find?_eq_none]
      intro x hx
      simp [eraseP_none_left _ db.bookings huniq x hx]
    constructor
    · simp [deleteBookingWithTransaction, hb1]
    · simp [deleteBookingWithTransaction, hb1, hnone2]

/-- Witness for C7: deleting booking 1 succeeds once, then the repeated call
returns `false` on the already-emptied store. -/
theorem deleteBooking_idempotent_witness :
    (deleteBookingWithTransaction ⟨[], [⟨1, 7, "a@b.cd"⟩]⟩ 1).1 = true ∧
    deleteBookingWithTransaction
        (deleteBookingWithTransaction ⟨[], [⟨1, 7, "a@b.cd"⟩]⟩ 1).2 1 =
      (false, (deleteBookingWithTransaction ⟨[], [⟨1, 7, "a@b.cd"⟩]⟩ 1).2) :=
  (deleteBooking_idempotent ⟨[], [⟨1, 7, "a@b.cd"⟩]⟩ 1 (by decide)).2
    ⟨⟨1, 7, "a@b.cd"⟩, by decide, rfl⟩

/-- C8: once a resolved connection is cached every call returns that same
handle with the cache untouched and without consulting the connector; a
failed attempt (an in-flight failed promise, or a fresh attempt that fails)
propagates the error and resets the cache to the fresh state
`⟨none, none⟩`; and from the fresh state the next call starts a new attempt,
caching its result on success. -/
theorem connectDB_cache_behavior :
    (∀ (connect : Unit → Except String Nat) (cache : MongooseCache) (c : Nat),
      cache.conn = some c → connectDB connect cache = (Except.ok c, cache)) ∧
    (∀ (connect : Unit → Except String Nat) (cache : MongooseCache) (e : String),
      cache.conn = none →
      (cache.promise = some (Except.error e) ∨
        (cache.promise = none ∧ connect () = Except.error e)) →
      connectDB connect cache = (Except.error e, ⟨none, none⟩)) ∧
    (∀ (connect : Unit → Except String Nat) (c : Nat),
      connect () = Except.ok c →
      connectDB connect ⟨none, none⟩ =
        (Except.ok c, ⟨some c, some (Except.ok c)⟩)) := by
  refine ⟨?_, ?_, ?_⟩
  · intro connect cache c hc
    simp [connectDB, hc]
  · intro connect cache e hconn hp
    rcases hp with hp | ⟨hp, hcall⟩
    · simp [connectDB, hconn, hp]
    · simp [connectDB, hconn, hp, hcall]
  · intro connect c hc
    simp [connectDB, hc]

/-- Witness for C8: with connection 5 cached, the call returns it and leaves
the cache alone, for either connector. -/
theorem connectDB_cache_behavior_witness :
    connectDB (fun _ => Except.error "down") ⟨some 5, none⟩ =
      (Except.ok 5, ⟨some 5, none⟩) :=
  connectDB_cache_behavior.1 (fun _ => Except.error "down") ⟨some 5, none⟩ 5 rfl

/-- C6: `normalizeDate` returns already-canonical `YYYY-MM-DD` inputs
unchanged when the runtime accepts them as real calendar dates and rejects
them otherwise; any other input is converted through the runtime's parser to
canonical `YYYY-MM-DD` form or rejected, stated for an arbitrary parser and
instantiated on the modelled runtime: `2024-1-5` becomes `2024-01-05`,
`not-a-date` fails, `2024-02-30` fails the calendar check and `2024-02-29` is
returned unchanged. -/
theorem normalizeDate_spec :
    (∀ (parse : String → Option CalendarDate) (s : String),
      isoDateTest s.data = true → (parse (s ++ "T00:00:00Z")).isSome = true →
      normalizeDate parse s = Except.ok s) ∧
    (∀ (parse : String → Option CalendarDate) (s : String),
      isoDateTest s.data = true → parse (s ++ "T00:00:00Z") = none →
      normalizeDate parse s = Except.error invalidDateMsg) ∧
    (∀ (parse : String → Option CalendarDate) (s : String) (d : CalendarDate),
      isoDateTest s.data = false → parse s = some d →
      normalizeDate parse s = Except.ok (toISODateOnly d)) ∧
    (∀ (parse : String → Option CalendarDate) (s : String),
      isoDateTest s.data = false → parse s = none →
      normalizeDate parse s = Except.error invalidDateMsg) ∧
    normalizeDate jsDateParse "2024-1-5" = Except.ok "2024-01-05" ∧
    normalizeDate jsDateParse "not-a-date" = Except.error invalidDateMsg ∧
    normalizeDate jsDateParse "2024-02-30" = Except.error invalidDateMsg ∧
    normalizeDate jsDateParse "2024-02-29" = Except.ok "2024-02-29" := by
  refine ⟨?_, ?_, ?_, ?_, by decide, by decide, by decide, by decide⟩
  · intro parse s h1 h2
    obtain ⟨d, hd⟩ := Option.isSome_iff_exists.mp h2
    simp [normalizeDate, h1, hd]
  · intro parse s h1 h2
    simp [normalizeDate, h1, h2]
  · intro parse s d h1 h2
    simp [normalizeDate, h1, h2]
  · intro parse s h1 h2
    simp [normalizeDate, h1, h2]

/-- Witness for C6: a canonical input the runtime accepts is returned
unchanged. -/
theorem normalizeDate_spec_witness :
    normalizeDate jsDateParse "2024-09-01" = Except.ok "2024-09-01" :=
  normalizeDate_spec.1 jsDateParse "2024-09-01" (by decide) (by decide)

/-- C9: an hour field between 13 and 23 with an `AM` suffix is not rejected:
the `AM` branch only rewrites hour 12, the 0–23 range check passes, and the
already-24-hour time is returned zero-padded; in particular
`normalizeTime "13:00 AM" = "13:00"`. -/
theorem normalizeTime_24hour_with_AM :
    normalizeTime "13:00 AM" = Except.ok "13:00" ∧
    (∀ h : Nat, 13 ≤ h → h ≤ 23 →
      normalizeTime (Nat.repr h ++ ":00 AM") = Except.ok (Nat.repr h ++ ":00")) := by
  constructor
  · decide
  · intro h h13 h23
    interval_cases h <;> decide

/-- Witness for C9: hour 20 with an `AM` suffix passes through unchanged. -/
theorem normalizeTime_24hour_with_AM_witness :
    normalizeTime (Nat.repr 20 ++ ":00 AM") = Except.ok (Nat.repr 20 ++ ":00") :=
  normalizeTime_24hour_with_AM.2 20 (by decide) (by decide)

/-- Helper: string concatenation concatenates the character lists. -/
theorem strData_append (a b : String) : (a ++ b).data = a.data ++ b.data := rfl

/-- Helper: every hour below 24 zero-pads to exactly two digit characters
carrying the same value. -/
theorem pad2DigitsOk_lt24 : ∀ n, n < 24 → pad2DigitsOk n = true := by decide

/-- Helper: a successful `timeMatch` always captures exactly two digit
characters for the minutes. -/
theorem timeMatch_minutes (l : List Char) (m : TimeMatch)
    (h : timeMatch l = some m) :
    ∃ a b, m.minuteDigits = [a, b] ∧ a.isDigit = true ∧ b.isDigit = true := by
  unfold timeMatch at h
  dsimp only at h
  split at h
  · exact absurd h (by simp)
  split at h
  · rename_i m1 m2 rest3 heq
    split at h
    · rename_i hdigits
      simp only [Bool.and_eq_true] at hdigits
      split at h
      · cases h
        exact ⟨m1, m2, rfl, hdigits.1, hdigits.2⟩
      split at h
      · cases h
        exact ⟨m1, m2, rfl, hdigits.1, hdigits.2⟩
      · exact absurd h (by simp)
    · exact absurd h (by simp)
  · exact absurd h (by simp)

/-- Helper: gluing two padded hour digits, a colon and two minute digits gives
a string in canonical zero-padded 24-hour form. -/
theorem canonical_of_parts (hr : Nat) (hh : hr ≤ 23) (ma mb : Char)
    (hma : ma.isDigit = true) (hmb : mb.isDigit = true)
    (hmins : digitsToNat [ma, mb] ≤ 59) :
    spec_canonicalTime (padZeroTo 2 (Nat.repr hr) ++ ":" ++ String.mk [ma, mb]) =
      true := by
  have hp := pad2DigitsOk_lt24 hr (by omega)
  unfold pad2DigitsOk at hp
  rcases hlist : (padZeroTo 2 (Nat.repr hr)).data with _ | ⟨a, _ | ⟨b, _ | ⟨c, rest⟩⟩⟩ <;>
    rw [hlist] at hp
  · exact absurd hp (by simp)
  · exact absurd hp (by simp)
  · simp only [Bool.and_eq_true, decide_eq_true_eq] at hp
    obtain ⟨⟨ha, hb⟩, hval⟩ := hp
    have hdata :
        (padZeroTo 2 (Nat.repr hr) ++ ":" ++ String.mk [ma, mb]).data =
          [a, b, ':', ma, mb] := by
      rw [strData_append, strData_append, hlist]
      rfl
    unfold spec_canonicalTime
    rw [hdata]
    simp [ha, hb, hma, hmb, hval, hh, hmins]
  · exact absurd hp (by simp)

/-- C5: `normalizeTime` maps `2:30 PM` to `14:30` and `2:30` to `02:30`; every
successful output is in canonical zero-padded 24-hour `HH:MM` form with
in-range hour and minute; an input that does not match the
`H:MM`/`HH:MM`-with-optional-meridiem pattern fails with the format error; an
input that matches the pattern but whose converted hour exceeds 23 or whose
minute exceeds 59 fails with the range error; and every input either fails
with the format error, fails with the range error, or succeeds. -/
theorem normalizeTime_spec :
    normalizeTime "2:30 PM" = Except.ok "14:30" ∧
    normalizeTime "2:30" = Except.ok "02:30" ∧
    (∀ s t, normalizeTime s = Except.ok t → spec_canonicalTime t = true) ∧
    (∀ s, timeMatch (jsTrimList s.data) = none →
      normalizeTime s = Except.error invalidTimeFormatMsg) ∧
    (∀ s m, timeMatch (jsTrimList s.data) = some m →
      (23 < convertHours (digitsToNat m.hourDigits) m.meridiem ∨
        59 < digitsToNat m.minuteDigits) →
      normalizeTime s = Except.error invalidTimeValuesMsg) ∧
    (∀ s, normalizeTime s = Except.error invalidTimeFormatMsg ∨
      normalizeTime s = Except.error invalidTimeValuesMsg ∨
      ∃ t, normalizeTime s = Except.ok t) := by
  refine ⟨by decide, by decide, ?_, ?_, ?_, ?_⟩
  · intro s t h
    rcases hm : timeMatch (jsTrimList s.data) with _ | m
    · rw [normalizeTime, hm] at h
      exact absurd h (by simp)
    · obtain ⟨ma, mb, hmins, hma, hmb⟩ := timeMatch_minutes _ _ hm
      rw [normalizeTime, hm] at h
      dsimp only at h
      rw [hmins] at h
      generalize hH : convertHours (digitsToNat m.hourDigits) m.meridiem = H at h
      split at h
      · exact absurd h (by simp)
      · rename_i hrange
        simp only [Bool.or_eq_true, decide_eq_true_eq, not_or] at hrange
        obtain rfl : _ = t := Except.ok.inj h
        exact canonical_of_parts H (by omega) ma mb hma hmb (by omega)
  · intro s h
    rw [normalizeTime, h]
  · intro s m hm hrange
    rw [normalizeTime, hm]
    dsimp only
    rcases hrange with h1 | h1 <;> simp [h1]
  · intro s
    rcases hm : timeMatch (jsTrimList s.data) with _ | m
    · exact Or.inl (by rw [normalizeTime, hm])
    · simp only [normalizeTime, hm]
      generalize convertHours (digitsToNat m.hourDigits) m.meridiem = H
      split
      · exact Or.inr (Or.inl rfl)
      · exact Or.inr (Or.inr ⟨_, rfl⟩)

/-- Witness for C5: the canonical-output conjunct applied at `2:30 PM`, and
the out-of-range conjunct applied at `25:00`, whose hour 25 matches the
pattern but fails the range check. -/
theorem normalizeTime_spec_witness :
    spec_canonicalTime "14:30" = true ∧
    normalizeTime "25:00" = Except.error invalidTimeValuesMsg :=
  ⟨normalizeTime_spec.2.2.1 "2:30 PM" "14:30" (by decide),
   normalizeTime_spec.2.2.2.2.1 "25:00" ⟨['2', '5'], ['0', '0'], none⟩
     (by decide) (Or.inl (by decide))⟩

end DevEvents
